import Mathlib

/-!
Shallow embedding of `l2d/utils.py` from the lidar2dems repository.

Python values that can be either an int or a string (the classification
parameters mix both) are modelled by the inductive type `PyVal`.
Raster bands are modelled as a `Raster` structure: a rectangular extent
(`rows`, `cols`), cell values as a function `Nat → Nat → Int`, and a
nodata sentinel.  File names are modelled as `List Char` for the
`os.path.splitext`-based code and as `String` elsewhere.  External
effects (glob, the overlap test from `l2d.geo`, scipy's `griddata`) enter
the model as explicit parameters, and shelling out (`os.system`) is
modelled by returning the list of command lines that would be executed.
-/

namespace L2D

/-- A Python scalar that is either an int or a str, as both occur in
`class_params`: the preset dictionary holds int pairs, while the
fallback branch assigns the string literals `'1'` and `'3'`. -/
inductive PyVal where
  | int : Int → PyVal
  | str : String → PyVal
deriving DecidableEq

/-- The preset dictionary `params` inside `class_params`
(utils.py lines 81-86): class code → (slope, cellsize), all ints.
A missing key corresponds to the `KeyError` caught by the bare `except`. -/
def classPresets : String → Option (PyVal × PyVal)
  | "1" => some (PyVal.int 1, PyVal.int 3)
  | "2" => some (PyVal.int 1, PyVal.int 2)
  | "3" => some (PyVal.int 5, PyVal.int 2)
  | "4" => some (PyVal.int 10, PyVal.int 2)
  | _ => none

/-- `class_params(feature, slope, cellsize)` (utils.py lines 74-93).
`feature` is `None` or a mapping from attribute names to values;
`feature.bind (fun f => f "class")` being `none` covers both the
`TypeError` on `None['class']` and a missing attribute, and a failed
`classPresets` lookup covers the `KeyError` on an unknown code — all
swallowed by the bare `except`, which falls back to the supplied
overrides completed by the string defaults `'1'` and `'3'`. -/
def class_params (feature : Option (String → Option String))
    (slope cellsize : Option PyVal) : PyVal × PyVal :=
  match slope, cellsize with
  | some s, some c => (s, c)
  | _, _ =>
    match (feature.bind (fun f => f "class")).bind classPresets with
    | some p => p
    | none => (slope.getD (PyVal.str "1"), cellsize.getD (PyVal.str "3"))

/-! ### `os.path.splitext` and `splitexts` -/

/-- Index of the last occurrence of `c` in `l` (Python's `str.rfind`,
restricted to found/not-found as an `Option`). -/
def lastIdxOf (c : Char) : List Char → Option Nat
  | [] => none
  | a :: rest =>
    match lastIdxOf c rest with
    | some i => some (i + 1)
    | none => if a = c then some 0 else none

/-- First index of the basename part of a path: one past the last `/`,
or 0 when there is no separator (`sepIndex + 1` in CPython's
`genericpath._splitext`). -/
def basenameStart (p : List Char) : Nat :=
  match lastIdxOf '/' p with
  | none => 0
  | some si => si + 1

/-- CPython's `posixpath.splitext`: split at the last dot of the
basename, unless every character of the basename before that dot is a
dot (leading dots do not start an extension). -/
def splitext (p : List Char) : List Char × List Char :=
  match lastIdxOf '.' p with
  | none => (p, [])
  | some di =>
    if basenameStart p ≤ di ∧
        ((p.drop (basenameStart p)).take (di - basenameStart p)).any
          (fun ch => ch != '.') = true then
      (p.take di, p.drop di)
    else
      (p, [])

/-- The compound extensions recognized by `splitexts`
(utils.py line 68): `.den`, `.min`, `.max`, `.mean`, `.idw`, `.count`
as character lists. -/
def knownExts : List (List Char) :=
  [['.', 'd', 'e', 'n'], ['.', 'm', 'i', 'n'], ['.', 'm', 'a', 'x'],
   ['.', 'm', 'e', 'a', 'n'], ['.', 'i', 'd', 'w'],
   ['.', 'c', 'o', 'u', 'n', 't']]

/-- `splitexts(filename)` (utils.py lines 64-71).  Python's
`len(parts) == 2` test is always true (`os.path.splitext` always
returns a pair), so only the membership test remains. -/
def splitexts (filename : List Char) : List Char × List Char :=
  let be := splitext filename
  let parts := splitext be.1
  if parts.2 ∈ knownExts then (parts.1, parts.2 ++ be.2) else (be.1, be.2)

/-! ### Rasters, `create_chm`, `gap_fill` -/

/-- A single-band raster: extent, per-cell values, nodata sentinel. -/
structure Raster where
  rows : Nat
  cols : Nat
  data : Nat → Nat → Int
  nodata : Int

/-- `create_chm(dtm, dsm, chm)` (utils.py lines 125-162).  The output
nodata is the DTM's (line 134).  The crop block (lines 140-151) leaves
both arrays with `min` rows and `min` cols, keeping indices from 0; the
per-cell values inside that extent are untouched by the crop.  Then
`arr = dsm - dtm`, cells where the DTM equals its nodata are set to
nodata (line 156), then cells where the DSM equals its nodata
(lines 158-159). -/
def create_chm (dtm dsm : Raster) : Raster :=
  let nodata := dtm.nodata
  let diff := fun i j => dsm.data i j - dtm.data i j
  let masked1 := fun i j => if dtm.data i j = dtm.nodata then nodata else diff i j
  let masked2 := fun i j => if dsm.data i j = dsm.nodata then nodata else masked1 i j
  { rows := min dsm.rows dtm.rows
    cols := min dsm.cols dtm.cols
    data := masked2
    nodata := nodata }

/-- The ordering used by `sorted(filenames)`: lexical on the name. -/
def byName (a b : String × Raster) : Prop := a.1 ≤ b.1

instance : DecidableRel byName := fun a b => inferInstanceAs (Decidable (a.1 ≤ b.1))

/-- `sorted(filenames)` (utils.py line 172): a stable sort by name;
insertion sort is stable, so it computes the same list as Python's
stable sort. -/
def sortByName (files : List (String × Raster)) : List (String × Raster) :=
  List.insertionSort byName files

/-- One pass of the gap-fill loop body (utils.py lines 178-179): cells
of the accumulator still equal to nodata take the next raster's value;
all other cells keep the accumulator's value. -/
def fillStep (nodata : Int) (acc next : Nat → Nat → Int) : Nat → Nat → Int :=
  fun i j => if acc i j = nodata then next i j else acc i j

/-- `gap_fill(filenames, fout)` with `site=None` (utils.py
lines 165-209, without the external CookieCutter clip).  `interp`
stands for `scipy.interpolate.griddata` applied to the valid cells of
the accumulated array; the code writes its values only at cells still
equal to nodata (lines 182-184).  The nodata sentinel and the output
extent come from the first sorted raster (lines 174, 187).  The second
`match` arm on `[]` is unreachable because sorting preserves length. -/
def gap_fill (interp : (Nat → Nat → Int) → Nat → Nat → Int)
    (files : List (String × Raster)) : Except String Raster :=
  if files.length = 0 then Except.error "No filenames provided!" else
  match sortByName files with
  | [] => Except.error "No filenames provided!"
  | f :: rest =>
    let nodata := f.2.nodata
    let arr := (rest.map (fun g => g.2.data)).foldl (fillStep nodata) f.2.data
    let filled := fun i j => if arr i j = nodata then interp arr i j else arr i j
    Except.ok { rows := f.2.rows, cols := f.2.cols, data := filled, nodata := nodata }

/-- Cell values of a `gap_fill` result (0 when it raised). -/
def resultData (e : Except String Raster) : Nat → Nat → Int :=
  match e with
  | Except.ok r => r.data
  | Except.error _ => fun _ _ => 0

/-- Nodata of a `gap_fill` result (0 when it raised). -/
def resultNodata (e : Except String Raster) : Int :=
  match e with
  | Except.ok r => r.nodata
  | Except.error _ => 0

/-! ### File discovery and the GDAL wrappers -/

/-- `find_lasfiles(lasdir, site, checkoverlap)` (utils.py
lines 101-108).  `globbed` is the result of the glob over `lasdir`;
`overlapFilter` stands for `check_overlap` from `l2d.geo` (not part of
the sources); `siteGiven` is whether `site is not None`. -/
def find_lasfiles (globbed : List String) (siteGiven checkoverlap : Bool)
    (overlapFilter : List String → List String) : Except String (List String) :=
  let filenames := if checkoverlap && siteGiven then overlapFilter globbed else globbed
  if filenames.length = 0 then Except.error "No LAS files found"
  else Except.ok filenames

/-- `find_classified_lasfile(lasdir, site, params)` (utils.py
lines 111-119).  `globbed` is the result of the glob for the
classification-suffix pattern. -/
def find_classified_lasfile (globbed : List String) : Except String (List String) :=
  if globbed.length = 0 then Except.error "No classified LAS files found"
  else Except.ok globbed

/-- Python's `' '.join`. -/
def joinSpace : List String → String
  | [] => ""
  | [s] => s
  | s :: rest => s ++ " " ++ joinSpace rest

/-- The `gdalbuildvrt` command line assembled by `create_vrt`
(utils.py lines 219-233).  `bounds` stands for
`map(str, get_vector_bounds(site))` when `site[0] is not None`
(`get_vector_bounds` lives in `l2d.geo`, outside the sources). -/
def buildVrtCmd (filenames : List String) (fout : String)
    (bounds : Option (List String)) (verbose : Bool) : String :=
  joinSpace (["gdalbuildvrt"]
    ++ (if verbose then [] else ["-q"])
    ++ (match bounds with
        | some bs => ["-te " ++ joinSpace bs]
        | none => [])
    ++ [fout] ++ filenames)

/-- `create_vrt(filenames, fout, site, overwrite, verbose)` (utils.py
lines 215-234).  `foutExists` is `os.path.exists(fout)`; the second
component is the list of shell commands run via `os.system`. -/
def create_vrt (foutExists : Bool) (filenames : List String) (fout : String)
    (bounds : Option (List String)) (overwrite verbose : Bool) : String × List String :=
  if foutExists && !overwrite then (fout, [])
  else (fout, [buildVrtCmd filenames fout bounds verbose])

/-! ### Sample rasters used by the witnesses -/

/-- 2x2 raster, nodata -9999 on all of row 0, valid elsewhere. -/
def rA : Raster :=
  ⟨2, 2, fun i j => if i = 0 then -9999 else (10 + 10 * (i : Int) + j), -9999⟩

/-- 2x2 raster, nodata -9999 everywhere except cell (0,0). -/
def rB : Raster :=
  ⟨2, 2, fun i j => if i = 0 ∧ j = 0 then (100 : Int) else -9999, -9999⟩

/-- 2x2 raster with no nodata cell. -/
def rC : Raster :=
  ⟨2, 2, fun i j => (200 + 10 * (i : Int) + j), -9999⟩

/-- 2x2 raster, nodata -7 at cell (1,0) only. -/
def rD : Raster :=
  ⟨2, 2, fun i j => if i = 1 ∧ j = 0 then -7 else (50 + 10 * (i : Int) + j), -7⟩

/-- 3x1 raster with no nodata cell. -/
def rE : Raster :=
  ⟨3, 1, fun i j => (7 + (i : Int) + j), -9999⟩

/-- A trivial stand-in for scipy's griddata in the witnesses. -/
def interpZero : (Nat → Nat → Int) → Nat → Nat → Int := fun _ _ _ => 0

/-! ### Theorems for the claims -/

/-- Claim C10: on the empty filename list, `gap_fill` raises
`No filenames provided!` before reading any raster or producing any
output; it never returns a result for an empty input list. -/
theorem claim10_gap_fill_empty_raises
    (interp : (Nat → Nat → Int) → Nat → Nat → Int) :
    gap_fill interp [] = Except.error "No filenames provided!" := rfl

/-- Claim C6: on a single-raster list, `gap_fill` leaves every cell
whose value differs from the nodata sentinel unchanged; only nodata
cells can be altered (by the interpolation step). -/
theorem claim6_gap_fill_singleton_identity_on_valid
    (interp : (Nat → Nat → Int) → Nat → Nat → Int) (nm : String) (R : Raster)
    (i j : Nat) (h : R.data i j ≠ R.nodata) :
    resultData (gap_fill interp [(nm, R)]) i j = R.data i j := by
  simp [gap_fill, sortByName, List.insertionSort, List.orderedInsert,
    resultData, h]

/-- Witness for C6 at a concrete raster and cell. -/
theorem claim6_witness :
    rA.data 1 1 ≠ rA.nodata ∧
    resultData (gap_fill interpZero [("a", rA)]) 1 1 = rA.data 1 1 :=
  ⟨by decide,
   claim6_gap_fill_singleton_identity_on_valid interpZero "a" rA 1 1 (by decide)⟩

/-- Claim C5: when the (optionally overlap-filtered) glob match set is
empty, `find_lasfiles` raises `No LAS files found` rather than
returning an empty list, and `find_classified_lasfile` raises
`No classified LAS files found` when its pattern matches nothing; a
non-empty match set is returned unchanged by both. -/
theorem claim5_find_raises_on_empty :
    (∀ (globbed : List String) (siteGiven checkoverlap : Bool)
        (overlapFilter : List String → List String),
      (if checkoverlap && siteGiven then overlapFilter globbed else globbed) = [] →
      find_lasfiles globbed siteGiven checkoverlap overlapFilter =
        Except.error "No LAS files found") ∧
    (∀ (globbed : List String) (siteGiven checkoverlap : Bool)
        (overlapFilter : List String → List String),
      (if checkoverlap && siteGiven then overlapFilter globbed else globbed) ≠ [] →
      find_lasfiles globbed siteGiven checkoverlap overlapFilter =
        Except.ok (if checkoverlap && siteGiven then overlapFilter globbed else globbed)) ∧
    (find_classified_lasfile [] = Except.error "No classified LAS files found") ∧
    (∀ globbed : List String, globbed ≠ [] →
      find_classified_lasfile globbed = Except.ok globbed) := by
  refine ⟨?_, ?_, rfl, ?_⟩
  · intro globbed siteGiven checkoverlap overlapFilter h
    simp only [find_lasfiles]
    rw [h]
    rfl
  · intro globbed siteGiven checkoverlap overlapFilter h
    have hl : (if checkoverlap && siteGiven then overlapFilter globbed
        else globbed).length ≠ 0 := by
      simpa [List.length_eq_zero] using h
    simp only [find_lasfiles]
    rw [if_neg hl]
  · intro globbed h
    have hl : globbed.length ≠ 0 := by simpa [List.length_eq_zero] using h
    simp only [find_classified_lasfile]
    rw [if_neg hl]

/-- Witness for C5: an empty match set raises, a singleton is returned
unchanged. -/
theorem claim5_witness :
    (find_lasfiles [] false false id = Except.error "No LAS files found") ∧
    (find_classified_lasfile ["a.las"] = Except.ok ["a.las"]) :=
  ⟨claim5_find_raises_on_empty.1 [] false false id rfl,
   claim5_find_raises_on_empty.2.2.2 ["a.las"] (by decide)⟩

/-- Claim C7: when the output path already exists and overwrite is
unset, `create_vrt` returns the path at once and runs no external
command (the existing file is untouched); when the target is absent or
overwrite is set, it runs exactly the assembled `gdalbuildvrt`
command. -/
theorem claim7_create_vrt_idempotent :
    (∀ (filenames : List String) (fout : String) (bounds : Option (List String))
        (verbose : Bool),
      create_vrt true filenames fout bounds false verbose = (fout, [])) ∧
    (∀ (foutExists : Bool) (filenames : List String) (fout : String)
        (bounds : Option (List String)) (overwrite verbose : Bool),
      foutExists = false ∨ overwrite = true →
      create_vrt foutExists filenames fout bounds overwrite verbose =
        (fout, [buildVrtCmd filenames fout bounds verbose])) := by
  refine ⟨fun filenames fout bounds verbose => rfl, ?_⟩
  intro foutExists filenames fout bounds overwrite verbose h
  rcases h with h | h <;> subst h <;> simp [create_vrt]

/-- Witness for C7: with the target absent the wrapper runs the
expected `gdalbuildvrt` command line. -/
theorem claim7_witness :
    create_vrt false ["a.tif"] "out.vrt" none false false =
      ("out.vrt", ["gdalbuildvrt -q out.vrt a.tif"]) := by
  rw [claim7_create_vrt_idempotent.2 false ["a.tif"] "out.vrt" none false false
    (Or.inl rfl)]
  rfl

/-- Claim C1: for DTM and DSM rasters of equal extent, `create_chm`
produces a raster whose value at each cell is DSM minus DTM, except
that cells where the DTM equals the DTM's nodata value or the DSM
equals the DSM's nodata value are set to the output's nodata value,
and the output's nodata value is the DTM's (not the DSM's). -/
theorem claim1_create_chm_equal_extent (dtm dsm : Raster)
    (hr : dsm.rows = dtm.rows) (hc : dsm.cols = dtm.cols) :
    (create_chm dtm dsm).nodata = dtm.nodata ∧
    (create_chm dtm dsm).rows = dtm.rows ∧
    (create_chm dtm dsm).cols = dtm.cols ∧
    ∀ i j, (create_chm dtm dsm).data i j =
      if dtm.data i j = dtm.nodata ∨ dsm.data i j = dsm.nodata then dtm.nodata
      else dsm.data i j - dtm.data i j := by
  refine ⟨rfl, by simp [create_chm, hr], by simp [create_chm, hc], ?_⟩
  intro i j
  by_cases h1 : dsm.data i j = dsm.nodata
  · simp [create_chm, h1]
  · by_cases h2 : dtm.data i j = dtm.nodata
    · simp [create_chm, h1, h2]
    · simp [create_chm, h1, h2]

/-- Witness for C1 at concrete equal-extent rasters: nodata comes from
the DTM, a doubly-valid cell carries the difference, a DTM-nodata cell
and a DSM-nodata cell are both nodata in the output. -/
theorem claim1_witness :
    rD.rows = rA.rows ∧ rD.cols = rA.cols ∧
    (create_chm rA rD).nodata = rA.nodata ∧
    (create_chm rA rD).data 1 1 = rD.data 1 1 - rA.data 1 1 ∧
    (create_chm rA rD).data 0 0 = rA.nodata ∧
    (create_chm rA rD).data 1 0 = rA.nodata := by
  have h := claim1_create_chm_equal_extent rA rD rfl rfl
  refine ⟨rfl, rfl, h.1, ?_, ?_, ?_⟩
  · rw [h.2.2.2 1 1]; decide
  · rw [h.2.2.2 0 0]; decide
  · rw [h.2.2.2 1 0]; decide

/-- Claim C4: for DTM and DSM rasters of differing extent, `create_chm`
crops both inputs to the elementwise minimum shape, keeping rows and
columns from index 0, before differencing; the output's shape is the
elementwise minimum of the two shapes and inside it the values are the
plain masked difference of the original cells — no other resampling or
alignment is performed. -/
theorem claim4_create_chm_crop (dtm dsm : Raster)
    (hne : dsm.rows ≠ dtm.rows ∨ dsm.cols ≠ dtm.cols) :
    (create_chm dtm dsm).rows = min dsm.rows dtm.rows ∧
    (create_chm dtm dsm).cols = min dsm.cols dtm.cols ∧
    ∀ i j, i < min dsm.rows dtm.rows → j < min dsm.cols dtm.cols →
      (create_chm dtm dsm).data i j =
        if dtm.data i j = dtm.nodata ∨ dsm.data i j = dsm.nodata then dtm.nodata
        else dsm.data i j - dtm.data i j := by
  refine ⟨rfl, rfl, ?_⟩
  intro i j _ _
  by_cases h1 : dsm.data i j = dsm.nodata
  · simp [create_chm, h1]
  · by_cases h2 : dtm.data i j = dtm.nodata
    · simp [create_chm, h1, h2]
    · simp [create_chm, h1, h2]

/-- Witness for C4 at a 2x2 DTM and a 3x1 DSM: the output extent is the
2x1 elementwise minimum and a cell inside it carries the masked
difference. -/
theorem claim4_witness :
    (rE.rows ≠ rA.rows ∨ rE.cols ≠ rA.cols) ∧
    (create_chm rA rE).rows = min rE.rows rA.rows ∧
    (create_chm rA rE).cols = min rE.cols rA.cols ∧
    (create_chm rA rE).rows = 2 ∧
    (create_chm rA rE).cols = 1 ∧
    (create_chm rA rE).data 1 0 = rE.data 1 0 - rA.data 1 0 := by
  have h := claim4_create_chm_crop rA rE (Or.inl (by decide))
  refine ⟨Or.inl (by decide), h.1, h.2.1, by decide, by decide, ?_⟩
  · rw [h.2.2 1 0 (by decide) (by decide)]; decide

/-- Claim C3 as stated is false: in the fallback branch `class_params`
returns the pair of string literals `('1', '3')`, not the integer pair
`(1, 3)` that the preset table holds for class `"1"`. -/
theorem claim3_counterexample :
    class_params none none none = (PyVal.str "1", PyVal.str "3") ∧
    class_params none none none ≠ (PyVal.int 1, PyVal.int 3) := by decide

/-- Claim C3 (amended): `class_params` is total (it never raises).
When both overrides are supplied it returns exactly that pair without
consulting the feature; otherwise, when the class lookup succeeds it
returns the preset pair, the presets for class codes `"1"`..`"4"`
being `(1,3)`, `(1,2)`, `(5,2)`, `(10,2)` (ints); and when the lookup
fails for any reason (missing feature, missing attribute, unknown
code) it returns the supplied overrides completed by the string
defaults `'1'` and `'3'` — in particular `('1', '3')` when no override
was given — instead of propagating the exception. -/
theorem claim3_class_params_amended :
    (∀ (feature : Option (String → Option String)) (s c : PyVal),
      class_params feature (some s) (some c) = (s, c)) ∧
    (∀ (f : String → Option String) (slope cellsize : Option PyVal)
        (code : String) (p : PyVal × PyVal),
      ¬(slope.isSome = true ∧ cellsize.isSome = true) →
      f "class" = some code → classPresets code = some p →
      class_params (some f) slope cellsize = p) ∧
    (∀ (feature : Option (String → Option String)) (slope cellsize : Option PyVal),
      ¬(slope.isSome = true ∧ cellsize.isSome = true) →
      (feature.bind (fun f => f "class")).bind classPresets = none →
      class_params feature slope cellsize =
        (slope.getD (PyVal.str "1"), cellsize.getD (PyVal.str "3"))) ∧
    (classPresets "1" = some (PyVal.int 1, PyVal.int 3) ∧
     classPresets "2" = some (PyVal.int 1, PyVal.int 2) ∧
     classPresets "3" = some (PyVal.int 5, PyVal.int 2) ∧
     classPresets "4" = some (PyVal.int 10, PyVal.int 2)) := by
  refine ⟨fun feature s c => rfl, ?_, ?_, by decide⟩
  · intro f slope cellsize code p hnot hf hp
    cases slope <;> cases cellsize <;>
      simp [class_params, hf, hp] <;> simp at hnot
  · intro feature slope cellsize hnot hb
    cases slope <;> cases cellsize <;> simp [class_params, hb]

/-- Witness for C3 (amended) at a concrete feature with class code
`"3"` and no overrides: the preset `(5, 2)` is returned. -/
theorem claim3_witness :
    class_params (some (fun a => if a = "class" then some "3" else none))
      none none = (PyVal.int 5, PyVal.int 2) :=
  claim3_class_params_amended.2.1 _ none none "3" _ (by decide) (by decide) rfl

/-- Claim C2: `gap_fill` first sorts the filenames lexically ascending
(the sorted list is `byName`-sorted and a permutation of the input);
whenever the sorted list is some `[A, B, C]`, the output takes its
nodata from `A`, initializes from `A`, and each later raster fills
exactly the cells still equal to the nodata value (first-writer-wins):
the result is `A` where `A` is valid, else `B` where `B` is valid,
else `C` where `C` is valid, else the interpolated value at the
accumulated array. -/
theorem claim2_gap_fill_order :
    (∀ files : List (String × Raster),
      List.Sorted byName (sortByName files) ∧ (sortByName files).Perm files) ∧
    (∀ (interp : (Nat → Nat → Int) → Nat → Nat → Int)
        (l : List (String × Raster)) (A B C : String × Raster),
      sortByName l = [A, B, C] →
      resultNodata (gap_fill interp l) = A.2.nodata ∧
      ∀ i j,
        resultData (gap_fill interp l) i j =
          if A.2.data i j = A.2.nodata then
            if B.2.data i j = A.2.nodata then
              if C.2.data i j = A.2.nodata then
                interp (fillStep A.2.nodata
                  (fillStep A.2.nodata A.2.data B.2.data) C.2.data) i j
              else C.2.data i j
            else B.2.data i j
          else A.2.data i j) := by
  constructor
  · intro files
    constructor
    · haveI h1 : IsTotal (String × Raster) byName := ⟨fun a b => le_total a.1 b.1⟩
      haveI h2 : IsTrans (String × Raster) byName :=
        ⟨fun a b c hab hbc => le_trans hab hbc⟩
      exact List.sorted_insertionSort byName files
    · exact List.perm_insertionSort byName files
  · intro interp l A B C h
    have hlen : (sortByName l).length = l.length :=
      List.length_insertionSort byName l
    rw [h] at hlen
    have hne0 : ¬ l.length = 0 := by rw [← hlen]; simp
    simp only [gap_fill, if_neg hne0, h]
    refine ⟨rfl, ?_⟩
    intro i j
    by_cases hA : A.2.data i j = A.2.nodata
    · by_cases hB : B.2.data i j = A.2.nodata
      · by_cases hC : C.2.data i j = A.2.nodata
        · simp [resultData, fillStep, hA, hB, hC]
        · simp [resultData, fillStep, hA, hB, hC]
      · simp [resultData, fillStep, hA, hB]
    · simp [resultData, fillStep, hA]

/-- Witness for C2 at three concrete rasters handed over unsorted:
the valid cell of the first sorted raster survives, a cell it misses
is filled from the second, and a cell both miss is filled from the
third. -/
theorem claim2_witness :
    sortByName [("b", rB), ("a", rA), ("c", rC)] =
      [("a", rA), ("b", rB), ("c", rC)] ∧
    resultNodata (gap_fill interpZero [("b", rB), ("a", rA), ("c", rC)]) =
      rA.nodata ∧
    resultData (gap_fill interpZero [("b", rB), ("a", rA), ("c", rC)]) 1 0 =
      rA.data 1 0 ∧
    resultData (gap_fill interpZero [("b", rB), ("a", rA), ("c", rC)]) 0 0 =
      rB.data 0 0 ∧
    resultData (gap_fill interpZero [("b", rB), ("a", rA), ("c", rC)]) 0 1 =
      rC.data 0 1 := by
  have hac : byName ("a", rA) ("c", rC) := by
    show ("a" : String) ≤ "c"
    rw [String.le_iff_toList_le]; decide
  have hba : ¬ byName ("b", rB) ("a", rA) := by
    show ¬ (("b" : String) ≤ "a")
    rw [String.le_iff_toList_le]; decide
  have hbc : byName ("b", rB) ("c", rC) := by
    show ("b" : String) ≤ "c"
    rw [String.le_iff_toList_le]; decide
  have hs : sortByName [("b", rB), ("a", rA), ("c", rC)] =
      [("a", rA), ("b", rB), ("c", rC)] := by
    simp only [sortByName, List.insertionSort, List.orderedInsert]
    rw [if_pos hac]
    simp only [List.orderedInsert]
    rw [if_neg hba, if_pos hbc]
  have h := claim2_gap_fill_order.2 interpZero _ ("a", rA) ("b", rB) ("c", rC) hs
  refine ⟨hs, h.1, ?_, ?_, ?_⟩
  · rw [h.2 1 0]; decide
  · rw [h.2 0 0]; decide
  · rw [h.2 0 1]; decide

/-! ### Facts about `lastIdxOf`, `basenameStart` and `splitext` -/

/-- `lastIdxOf` over an append: a hit in the right part wins, shifted
by the left length; otherwise the left part decides. -/
theorem lastIdxOf_append (c : Char) (xs ys : List Char) :
    lastIdxOf c (xs ++ ys) =
      (lastIdxOf c ys).elim (lastIdxOf c xs) (fun i => some (xs.length + i)) := by
  induction xs with
  | nil => cases h : lastIdxOf c ys <;> simp [h, lastIdxOf]
  | cons a xs ih =>
    cases h : lastIdxOf c ys with
    | none =>
      rw [h] at ih
      simp only [Option.elim] at ih
      show (match lastIdxOf c (xs ++ ys) with
            | some i => some (i + 1)
            | none => if a = c then some 0 else none) =
          Option.elim none (lastIdxOf c (a :: xs)) fun i => some ((a :: xs).length + i)
      rw [ih]
      rfl
    | some i =>
      rw [h] at ih
      simp only [Option.elim] at ih
      show (match lastIdxOf c (xs ++ ys) with
            | some k => some (k + 1)
            | none => if a = c then some 0 else none) =
          Option.elim (some i) (lastIdxOf c (a :: xs)) fun k => some ((a :: xs).length + k)
      rw [ih]
      show some (xs.length + i + 1) = some ((a :: xs).length + i)
      congr 1
      simp only [List.length_cons]
      omega

/-- A character that does not occur has no last index. -/
theorem lastIdxOf_eq_none (c : Char) (l : List Char) (h : c ∉ l) :
    lastIdxOf c l = none := by
  induction l with
  | nil => rfl
  | cons a l ih =>
    simp only [List.mem_cons, not_or] at h
    simp only [lastIdxOf, ih h.2]
    rw [if_neg (fun hh => h.1 hh.symm)]

/-- The last index of an occurring character is inside the list. -/
theorem lastIdxOf_lt_length (c : Char) (l : List Char) (i : Nat)
    (h : lastIdxOf c l = some i) : i < l.length := by
  induction l generalizing i with
  | nil => simp [lastIdxOf] at h
  | cons a l ih =>
    simp only [lastIdxOf] at h
    cases hl : lastIdxOf c l with
    | none =>
      rw [hl] at h
      by_cases ha : a = c
      · rw [if_pos ha] at h
        simp only [Option.some.injEq] at h
        simp [← h]
      · rw [if_neg ha] at h
        exact absurd h (by simp)
    | some k =>
      rw [hl] at h
      simp only [Option.some.injEq] at h
      have := ih k hl
      simp only [List.length_cons]
      omega

/-- The basename of a path starts inside it. -/
theorem basenameStart_le (p : List Char) : basenameStart p ≤ p.length := by
  unfold basenameStart
  cases h : lastIdxOf '/' p with
  | none => exact Nat.zero_le _
  | some si =>
    show si + 1 ≤ p.length
    exact lastIdxOf_lt_length '/' p si h

/-- Appending slash-free characters does not move the basename start. -/
theorem basenameStart_append (xs ys : List Char) (h : '/' ∉ ys) :
    basenameStart (xs ++ ys) = basenameStart xs := by
  unfold basenameStart
  rw [lastIdxOf_append, lastIdxOf_eq_none '/' ys h]
  rfl

/-- An extension `'.' :: e'` with no further dot has its last dot at
index 0. -/
theorem lastIdxOf_dot_ext (e' : List Char) (hed : '.' ∉ e') :
    lastIdxOf '.' ('.' :: e') = some 0 := by
  simp [lastIdxOf, lastIdxOf_eq_none '.' e' hed]

/-- `os.path.splitext` splits without losing characters:
root ++ ext is the input. -/
theorem splitext_append (p : List Char) :
    (splitext p).1 ++ (splitext p).2 = p := by
  unfold splitext
  cases h : lastIdxOf '.' p with
  | none => simp
  | some di =>
    dsimp only
    by_cases hc : basenameStart p ≤ di ∧
        ((p.drop (basenameStart p)).take (di - basenameStart p)).any
          (fun ch => ch != '.') = true
    · rw [if_pos hc]
      exact List.take_append_drop di p
    · rw [if_neg hc]
      simp

/-- `splitext` on `stem ++ ('.' :: m) ++ ('.' :: e')` with a dot-free
nonempty `m` and dot-free `e'`, both slash-free: splits off exactly
`'.' :: e'`. -/
theorem splitext_stem_mid_ext (stem m e' : List Char) (hm : m ≠ [])
    (hmd : '.' ∉ m) (hms : '/' ∉ m) (hed : '.' ∉ e') (hes : '/' ∉ e') :
    splitext (stem ++ ('.' :: m) ++ ('.' :: e')) =
      (stem ++ ('.' :: m), '.' :: e') := by
  obtain ⟨a, m', rfl⟩ := List.exists_cons_of_ne_nil hm
  have hms' : '/' ∉ ('.' :: a :: m') := by
    simp only [List.mem_cons, not_or]
    exact ⟨by decide, by simpa [not_or] using hms⟩
  have hes' : '/' ∉ ('.' :: e') := by
    simp only [List.mem_cons, not_or]
    exact ⟨by decide, hes⟩
  have h1 : lastIdxOf '.' (stem ++ ('.' :: a :: m') ++ ('.' :: e')) =
      some (stem ++ ('.' :: a :: m')).length := by
    rw [lastIdxOf_append, lastIdxOf_dot_ext e' hed]
    simp [Option.elim]
  have h2 : basenameStart (stem ++ ('.' :: a :: m') ++ ('.' :: e')) =
      basenameStart stem := by
    rw [basenameStart_append _ _ hes', basenameStart_append _ _ hms']
  have hbs : basenameStart stem ≤ stem.length := basenameStart_le stem
  have hlen : (stem ++ ('.' :: a :: m')).length =
      stem.length + (m'.length + 2) := by simp
  have ha : a ≠ '.' := fun hh => hmd (by simp [hh])
  unfold splitext
  rw [h1]
  dsimp only
  rw [h2]
  have hcond : basenameStart stem ≤ (stem ++ ('.' :: a :: m')).length ∧
      (((stem ++ ('.' :: a :: m') ++ ('.' :: e')).drop (basenameStart stem)).take
        ((stem ++ ('.' :: a :: m')).length - basenameStart stem)).any
        (fun ch => ch != '.') = true := by
    constructor
    · omega
    · rw [List.drop_append_of_le_length
        (show basenameStart stem ≤ (stem ++ ('.' :: a :: m')).length by omega)]
      rw [List.take_left' (List.length_drop _ _)]
      rw [List.drop_append_of_le_length hbs]
      rw [List.any_append]
      simp [ha]
  rw [if_pos hcond]
  rw [List.take_left, List.drop_left]

/-- `splitext` on `stem ++ ('.' :: m)` with a dot-free nonempty
slash-free `m`, when the basename of `stem` is not all dots: splits
off exactly `'.' :: m`. -/
theorem splitext_stem_mid (stem m : List Char) (hmd : '.' ∉ m)
    (hms : '/' ∉ m)
    (hstem : (stem.drop (basenameStart stem)).any (fun ch => ch != '.') = true) :
    splitext (stem ++ ('.' :: m)) = (stem, '.' :: m) := by
  have hms' : '/' ∉ ('.' :: m) := by
    simp only [List.mem_cons, not_or]
    exact ⟨by decide, hms⟩
  have h1 : lastIdxOf '.' (stem ++ ('.' :: m)) = some stem.length := by
    rw [lastIdxOf_append, lastIdxOf_dot_ext m hmd]
    simp [Option.elim]
  have h2 : basenameStart (stem ++ ('.' :: m)) = basenameStart stem :=
    basenameStart_append _ _ hms'
  have hbs : basenameStart stem ≤ stem.length := basenameStart_le stem
  unfold splitext
  rw [h1]
  dsimp only
  rw [h2]
  have hcond : basenameStart stem ≤ stem.length ∧
      (((stem ++ ('.' :: m)).drop (basenameStart stem)).take
        (stem.length - basenameStart stem)).any (fun ch => ch != '.') = true := by
    refine ⟨hbs, ?_⟩
    rw [List.drop_append_of_le_length hbs]
    rw [List.take_left' (List.length_drop _ _)]
    exact hstem
  rw [if_pos hcond]
  rw [List.take_left, List.drop_left]

/-- The compound split: `splitexts` on a stem plus a recognized middle
extension plus a final extension returns the stem and the concatenated
compound extension. -/
theorem splitexts_compound (stem m e' : List Char) (hm : m ≠ [])
    (hmd : '.' ∉ m) (hms : '/' ∉ m) (hed : '.' ∉ e') (hes : '/' ∉ e')
    (hmem : ('.' :: m) ∈ knownExts)
    (hstem : (stem.drop (basenameStart stem)).any (fun ch => ch != '.') = true) :
    splitexts (stem ++ ('.' :: m) ++ ('.' :: e')) =
      (stem, ('.' :: m) ++ ('.' :: e')) := by
  simp only [splitexts]
  rw [splitext_stem_mid_ext stem m e' hm hmd hms hed hes]
  simp only
  rw [splitext_stem_mid stem m hmd hms hstem]
  simp only
  rw [if_pos hmem]

/-- Claim C8: for every filename of the form
`stem ++ mid ++ ext` whose second-to-last extension `mid` is one of
the recognized set, `splitexts` returns the stem with both extensions
removed together with the concatenation of the two extensions; for
every filename whose second-to-last extension is not recognized, it
returns the ordinary single-extension split. -/
theorem claim8_splitexts_compound_extensions :
    (∀ (stem m e' : List Char),
      ('.' :: m) ∈ knownExts → '.' ∉ e' → '/' ∉ e' →
      (stem.drop (basenameStart stem)).any (fun ch => ch != '.') = true →
      splitexts (stem ++ ('.' :: m) ++ ('.' :: e')) =
        (stem, ('.' :: m) ++ ('.' :: e'))) ∧
    (∀ f : List Char, (splitext (splitext f).1).2 ∉ knownExts →
      splitexts f = splitext f) := by
  constructor
  · intro stem m e' hmem hed hes hstem
    have hmem' := hmem
    simp only [knownExts, List.mem_cons, List.not_mem_nil, or_false] at hmem'
    rcases hmem' with h | h | h | h | h | h <;>
      (injection h with _ h2; subst h2;
        exact splitexts_compound stem _ e' (by decide) (by decide) (by decide)
          hed hes hmem hstem)
  · intro f h
    simp only [splitexts]
    rw [if_neg h]

/-- Witness for C8: `dtm.idw.tif` splits into `dtm` and the compound
extension `.idw.tif`. -/
theorem claim8_witness :
    splitexts (['d', 't', 'm'] ++ ('.' :: ['i', 'd', 'w']) ++ ('.' :: ['t', 'i', 'f'])) =
      (['d', 't', 'm'], ('.' :: ['i', 'd', 'w']) ++ ('.' :: ['t', 'i', 'f'])) :=
  claim8_splitexts_compound_extensions.1 ['d', 't', 'm'] ['i', 'd', 'w']
    ['t', 'i', 'f'] (by decide) (by decide) (by decide) (by decide)

/-- Claim C9: `splitexts` never loses or reorders characters — the
returned basename and extension concatenate back to the input, whether
or not the compound-extension branch is taken. -/
theorem claim9_splitexts_roundtrip (f : List Char) :
    (splitexts f).1 ++ (splitexts f).2 = f := by
  simp only [splitexts]
  by_cases h : (splitext (splitext f).1).2 ∈ knownExts
  · rw [if_pos h]
    simp only
    rw [← List.append_assoc, splitext_append, splitext_append]
  · rw [if_neg h]
    simp only
    rw [splitext_append]

end L2D
